import Mathlib

/-!
Shallow embedding of the quackey TOTP manager core (src/account.rs, src/storage.rs,
src/error.rs) and proofs of the specification claims about it.

Modelling conventions:
- Rust `u64`/`usize` values are `Nat`; where wrap-around of u64 arithmetic matters
  (release-mode semantics) it is written with an explicit `% u64Mod`.
- Fallible Rust code returns `Except AppError _`; a Rust panic (e.g. `.unwrap()` on
  an `Err`) is a distinguished `RunResult.panicked` outcome.
- The file system is an explicit `World` value: a map from paths to file contents
  plus flags saying which I/O primitives succeed on this run.  File contents are
  represented structurally: `Content.json j` stands for the (injective) serde_json
  pretty-printed rendering of the JSON value `j`, `Content.empty` for the empty
  string, `Content.raw s` for non-empty text that is not valid JSON.
- The logger/notifier collaborator is modelled as a no-op: per the spec it is
  fire-and-forget and never fails the calling operation, and no claim concerns it.
-/

/-- `AppError` from src/error.rs.  `io::Error` and `SystemTimeError` payloads are
reduced to their display strings / a unit, which is all the claims need. -/
inductive AppError where
  | IoError (msg : String)
  | FileError (msg : String)
  | JsonError (msg : String)
  | TotpError (msg : String)
  | SystemTimeError
  | InvalidInput (msg : String)
  | PermissionError (msg : String)
deriving DecidableEq, Repr

/-- `Algorithm` from src/account.rs (serde-renamed to "SHA1"/"SHA256"/"SHA512"). -/
inductive Algorithm where
  | sha1
  | sha256
  | sha512
deriving DecidableEq, Repr

/-- `Account` from src/account.rs: name, secret (Base32 text, stored verbatim),
digits (usize), period (u64), algorithm, optional issuer. -/
structure Account where
  name : String
  secret : String
  digits : Nat
  period : Nat
  algorithm : Algorithm
  issuer : Option String
deriving DecidableEq, Repr

/-- 2^64: the modulus of Rust u64 arithmetic. -/
def u64Mod : Nat := 18446744073709551616

/-! ## JSON values and the serde encoding of accounts

`Json` is the structural content of a serde_json document; `Content.json j` in a
`World` stands for its pretty-printed text (pretty-printing is injective and
parsing is its inverse, so the string level is elided). -/

inductive Json where
  | jnull
  | jbool (b : Bool)
  | jnum (n : Nat)
  | jstr (s : String)
  | jarr (elems : List Json)
  | jobj (fields : List (String × Json))

/-- serde serialization of `Algorithm` (rename attributes in src/account.rs). -/
def algToString : Algorithm → String
  | .sha1 => "SHA1"
  | .sha256 => "SHA256"
  | .sha512 => "SHA512"

/-- serde deserialization of `Algorithm`. -/
def algFromString (s : String) : Option Algorithm :=
  if s == "SHA1" then some .sha1
  else if s == "SHA256" then some .sha256
  else if s == "SHA512" then some .sha512
  else none

/-- Serialization of one `Account` record: fields in declaration order, `issuer`
as `null` when `None` (serde derive on src/account.rs lines 34-45). -/
def encodeAccount (a : Account) : Json :=
  .jobj [("name", .jstr a.name),
         ("secret", .jstr a.secret),
         ("digits", .jnum a.digits),
         ("period", .jnum a.period),
         ("algorithm", .jstr (algToString a.algorithm)),
         ("issuer", match a.issuer with | none => .jnull | some s => .jstr s)]

/-- `serde_json::to_string_pretty(&self.accounts)`: a JSON array of records. -/
def encodeAccounts (l : List Account) : Json :=
  .jarr (l.map encodeAccount)

/-- Field lookup inside a JSON object. -/
def getField (fields : List (String × Json)) (k : String) : Option Json :=
  (fields.find? (fun f => f.1 == k)).map (·.2)

def asString : Json → Option String
  | .jstr s => some s
  | _ => none

def asNat : Json → Option Nat
  | .jnum n => some n
  | _ => none

/-- serde deserialization of `Option<String>`: `null` ↦ `None`, string ↦ `Some`. -/
def asIssuer : Json → Option (Option String)
  | .jnull => some none
  | .jstr s => some (some s)
  | _ => none

/-- serde deserialization of one `Account` record (derive on src/account.rs):
`name` and `secret` are required strings; `digits`, `period`, `algorithm` take
their `#[serde(default)]` values 6, 30, SHA1 when the key is absent; `issuer`,
being an `Option`, deserializes to `None` when the key is absent (serde's
`missing_field` special-cases `Option` via `visit_none`). -/
def decodeAccount (j : Json) : Option Account :=
  match j with
  | .jobj fields => do
    let name ← (getField fields "name").bind asString
    let secret ← (getField fields "secret").bind asString
    let digits ← match getField fields "digits" with
      | none => some 6
      | some v => asNat v
    let period ← match getField fields "period" with
      | none => some 30
      | some v => asNat v
    let algorithm ← match getField fields "algorithm" with
      | none => some Algorithm.sha1
      | some v => (asString v).bind algFromString
    let issuer ← match getField fields "issuer" with
      | none => some none
      | some v => asIssuer v
    some { name := name, secret := secret, digits := digits, period := period,
           algorithm := algorithm, issuer := issuer }
  | _ => none

/-- serde's sequence visitor: decode every element, failing if any element
fails. -/
def decodeList : List Json → Option (List Account)
  | [] => some []
  | j :: rest => do
    let a ← decodeAccount j
    let t ← decodeList rest
    some (a :: t)

/-- `serde_json::from_str::<Vec<Account>>`: a top-level array of records. -/
def parseAccounts (j : Json) : Option (List Account) :=
  match j with
  | .jarr elems => decodeList elems
  | _ => none

/-! ## Base32 and TOTP generation (src/account.rs) -/

/-- Modelled from the spec: value of one Base32 character, alphabet A-Z2-7
(RFC 4648); any other character is invalid.  This is the decoding performed by
the external base32 crate behind totp-rs `Secret::Encoded::to_bytes`. -/
def b32val (c : Char) : Option Nat :=
  if 'A' ≤ c ∧ c ≤ 'Z' then some (c.toNat - 'A'.toNat)
  else if '2' ≤ c ∧ c ≤ '7' then some (c.toNat - '2'.toNat + 26)
  else none

/-- Pack a list of 5-bit groups into 8-bit bytes (big-endian bit order),
dropping any final partial byte. -/
def pack5 : List Nat → Nat → Nat → List Nat
  | [], _, _ => []
  | v :: rest, buf, bits =>
    let buf' := buf * 32 + v
    let bits' := bits + 5
    if bits' ≥ 8 then
      (buf' / 2 ^ (bits' - 8)) :: pack5 rest (buf' % 2 ^ (bits' - 8)) (bits' - 8)
    else
      pack5 rest buf' bits'

/-- Modelled from the spec: Base32 decoding of the secret string (the external
collaborator "Base32 decoding — assumed available from a standard library");
fails on any character outside the A-Z2-7 alphabet. -/
def base32Decode (s : String) : Option (List Nat) :=
  (s.data.mapM b32val).map (fun vs => pack5 vs 0 0)

/-- Modelled from the spec: RFC 4226 dynamic truncation and code formatting, the
body of the external totp-rs `generate` — counter = floor(now/period), HMAC over
the 8-byte big-endian counter (the HMAC primitive itself is an external
collaborator passed in as a function), 4-bit offset from the last digest byte,
31-bit extraction, mod 10^digits, left-padded with zeros. -/
def totpCode (hmac : List Nat → List Nat → List Nat)
    (key : List Nat) (digits period now : Nat) : String :=
  let counter := now / period
  let counterBytes := (List.range 8).map (fun i => counter / 2 ^ (8 * (7 - i)) % 256)
  let digest := hmac key counterBytes
  let offset := digest.getD (digest.length - 1) 0 % 16
  let binCode := digest.getD offset 0 % 128 * 2 ^ 24
    + digest.getD (offset + 1) 0 * 2 ^ 16
    + digest.getD (offset + 2) 0 * 2 ^ 8
    + digest.getD (offset + 3) 0
  let code := binCode % 10 ^ digits
  String.mk (List.replicate (digits - (toString code).length) '0') ++ toString code

/-- Outcome of running a piece of Rust code: normal return, error return, or
panic/abort. -/
inductive RunResult (α : Type) where
  | ok (value : α)
  | err (error : AppError)
  | panicked
deriving Repr

/-- `Account::generate_totp` (src/account.rs lines 98-113).  The clock reading is
a parameter: `some now` is a successful `SystemTime` read of `now` seconds since
the epoch, `none` an unavailable/pre-epoch clock.  Faithful to the source:
`Secret::Encoded(self.secret.clone()).to_bytes().unwrap()` PANICS when the
secret is not valid Base32 (unwrap of an `Err`), before `TOTP::new` is entered;
`TOTP::new`'s own validation (digit count 6-8, modelled from the spec's
"supported values 6, 7, 8") is mapped to `AppError::TotpError`; a clock failure
inside `generate_current` is mapped to `AppError::SystemTimeError`. -/
def Account.generate_totp (hmac : Algorithm → List Nat → List Nat → List Nat)
    (a : Account) (clock : Option Nat) : RunResult String :=
  match base32Decode a.secret with
  | none => .panicked
  | some key =>
    if 6 ≤ a.digits ∧ a.digits ≤ 8 then
      match clock with
      | none => .err AppError.SystemTimeError
      | some now => .ok (totpCode (hmac a.algorithm) key a.digits a.period now)
    else
      .err (AppError.TotpError "Failed to create TOTP")

/-- `Account::time_remaining` (src/account.rs lines 115-125) with the clock value
`now` as a parameter.  u64 arithmetic is modelled with explicit wrap-around
(`% u64Mod`); the final `next_period_start - now` is u64 wrapping subtraction. -/
def Account.time_remaining (a : Account) (now : Nat) : Nat :=
  let current_period := now / a.period
  let next_period_start := (current_period + 1) * a.period % u64Mod
  (next_period_start + u64Mod - now % u64Mod) % u64Mod

/-- The `SystemTime::now().duration_since(UNIX_EPOCH).unwrap_or_default().as_secs()`
prelude of `time_remaining`: an unavailable or pre-epoch clock yields 0. -/
def readClock : Option Nat → Nat
  | none => 0
  | some n => n

/-- `Account::time_remaining` as actually run: the division `now / self.period`
panics when `period = 0` (Rust division by zero), modelled as `none`; otherwise
the function totally computes a value. -/
def Account.time_remaining_run (a : Account) (clock : Option Nat) : Option Nat :=
  if a.period = 0 then none
  else some (a.time_remaining (readClock clock))

/-! ## The file system world and the storage layer (src/storage.rs) -/

/-- Contents of a file on disk. `json j` stands for the pretty-printed rendering
of `j` (rendering is injective, parsing is its inverse); `empty` is the empty
string; `raw s` is non-empty text that is not valid JSON. -/
inductive Content where
  | empty
  | raw (s : String)
  | json (j : Json)

/-- Does `serde_json::from_str::<Vec<Account>>` succeed on this file content?
(The empty string is not valid JSON; `load` special-cases it separately.) -/
def Content.parses : Content → Bool
  | .empty => false
  | .raw _ => false
  | .json j => (parseAccounts j).isSome

/-- The file system and the behavior of the I/O primitives on this run:
`files` maps existing paths to their contents; the flags say whether
`create_dir_all`, `File::open`+`read_to_string`, `File::create`, `write_all`
and `fs::rename` succeed when called. -/
structure World where
  files : List (String × Content)
  dirOk : Bool
  openOk : Bool
  createOk : Bool
  writeOk : Bool
  renameOk : Bool

/-- Look a path up in the file map (`Path::exists` / reading). -/
def findFile : List (String × Content) → String → Option Content
  | [], _ => none
  | e :: t, p => if e.1 = p then some e.2 else findFile t p

/-- Remove a path from the file map. -/
def removeFile : List (String × Content) → String → List (String × Content)
  | [], _ => []
  | e :: t, p => if e.1 = p then removeFile t p else e :: removeFile t p

/-- Create-or-overwrite a path in the file map. -/
def setFile (fs : List (String × Content)) (p : String) (c : Content) :
    List (String × Content) :=
  (p, c) :: removeFile fs p

/-- `fs::rename src dst` (overwrites `dst`; no-op here when `src` is absent,
the flag `renameOk` governs whether the call is attempted successfully). -/
def renameFile (fs : List (String × Content)) (src dst : String) :
    List (String × Content) :=
  match findFile fs src with
  | some c => setFile (removeFile fs src) dst c
  | none => fs

/-- `Storage` from src/storage.rs: bound path plus the in-memory account vector.
The optional logger is modelled as a no-op collaborator (spec: fire-and-forget,
never fails the calling operation) and therefore carries no state. -/
structure Storage where
  file_path : String
  accounts : List Account
deriving Repr

/-- `Storage::ensure_directory` (src/storage.rs lines 62-110) abstracted to its
observable effect: it succeeds, or fails with `FileError` when the directory
must be created and `create_dir_all` fails (`w.dirOk = false`); logging is a
no-op. -/
def ensureDirectory (w : World) : Except AppError Unit :=
  if w.dirOk then .ok () else .error (AppError.FileError "Failed to create directory")

/-- `Storage::load` (src/storage.rs lines 215-261).  Absent file: reset to the
empty list, `Ok`.  Open/read failure: `FileError`.  Empty contents: `Ok`
WITHOUT touching the current account list (the source returns early before
assigning `self.accounts`).  Parse success: replace the list.  Parse failure:
`JsonError`, list untouched. -/
def Storage.load (s : Storage) (w : World) : Except AppError Unit × Storage :=
  match findFile w.files s.file_path with
  | none => (.ok (), { s with accounts := [] })
  | some c =>
    if w.openOk then
      match c with
      | .empty => (.ok (), s)
      | .raw _ => (.error (AppError.JsonError "Failed to parse JSON"), s)
      | .json j =>
        match parseAccounts j with
        | some accs => (.ok (), { s with accounts := accs })
        | none => (.error (AppError.JsonError "Failed to parse JSON"), s)
    else
      (.error (AppError.FileError "Failed to open file"), s)

/-- `Storage::save` (src/storage.rs lines 263-297): ensure directory, serialize
(`to_string_pretty` never fails on a `Vec<Account>`), `File::create` (which
truncates the file on success — so a subsequent `write_all` failure leaves an
empty file behind), `write_all`. -/
def Storage.save (s : Storage) (w : World) : Except AppError Unit × World :=
  if w.dirOk then
    let j := encodeAccounts s.accounts
    if w.createOk then
      if w.writeOk then
        (.ok (), { w with files := setFile w.files s.file_path (.json j) })
      else
        (.error (AppError.FileError "Failed to write to file"),
         { w with files := setFile w.files s.file_path .empty })
    else
      (.error (AppError.FileError "Failed to create file"), w)
  else
    (.error (AppError.FileError "Failed to create directory"), w)

/-- `Storage::new_with_logger` (src/storage.rs lines 20-46): construct with an
empty account list, ensure the directory (a failure here propagates), and if
the file exists attempt `load`; a load error is absorbed — the file is renamed
to `<path>.bak` (best-effort: a rename failure is itself only logged) and the
store is returned as constructed. -/
def Storage.new_with_logger (fp : String) (w : World) : Except AppError Storage × World :=
  let s : Storage := { file_path := fp, accounts := [] }
  if w.dirOk then
    if (findFile w.files fp).isSome then
      let res := s.load w
      match res.1 with
      | .ok _ => (.ok res.2, w)
      | .error _ =>
        if w.renameOk then
          (.ok res.2, { w with files := renameFile w.files fp (fp ++ ".bak") })
        else
          (.ok res.2, w)
    else
      (.ok s, w)
  else
    (.error (AppError.FileError "Failed to create directory"), w)

/-- `Storage::update_file_path` (src/storage.rs lines 118-133): rebind the path
FIRST, log (no-op), ensure the new directory (failure propagates, path already
rebound), then `load` from the new path. -/
def Storage.update_file_path (s : Storage) (w : World) (new_path : String) :
    Except AppError Unit × Storage × World :=
  let s1 := { s with file_path := new_path }
  match ensureDirectory w with
  | .ok _ =>
    let res := s1.load w
    (res.1, res.2, w)
  | .error e => (.error e, s1, w)

/-- `Storage::add_account` (src/storage.rs lines 135-146): ensure directory
(failure propagates BEFORE the push), push the account, log (no-op), save.
A save failure leaves the pushed account in memory. -/
def Storage.add_account (s : Storage) (w : World) (a : Account) :
    Except AppError Unit × Storage × World :=
  match ensureDirectory w with
  | .ok _ =>
    let s' := { s with accounts := s.accounts ++ [a] }
    let res := s'.save w
    (res.1, s', res.2)
  | .error e => (.error e, s, w)

/-- `Storage::delete_account` (src/storage.rs lines 153-175): find the FIRST
account with the given name (`Iter::position`), remove it (`Vec::remove`) and
save; absent name: `InvalidInput("Account '<name>' not found")`, no change. -/
def Storage.delete_account (s : Storage) (w : World) (name : String) :
    Except AppError Unit × Storage × World :=
  let i := s.accounts.findIdx (fun a => a.name == name)
  if i < s.accounts.length then
    let s' := { s with accounts := s.accounts.eraseIdx i }
    let res := s'.save w
    (res.1, s', res.2)
  else
    (.error (AppError.InvalidInput ("Account '" ++ name ++ "' not found")), s, w)

/-- `Storage::update_account` (src/storage.rs lines 178-213): find the FIRST
account named `old_name`, build `Account::new(new_name, secret, digits, period,
algorithm, new_issuer)` from its fields (the `Algorithm` ↔ `totp_rs::Algorithm`
conversion round-trip is the identity), overwrite that slot, save; absent name:
`InvalidInput("Account '<old_name>' not found")`, no change. -/
def Storage.update_account (s : Storage) (w : World) (old_name new_name : String)
    (new_issuer : Option String) : Except AppError Unit × Storage × World :=
  let i := s.accounts.findIdx (fun a => a.name == old_name)
  if h : i < s.accounts.length then
    let account := s.accounts.get ⟨i, h⟩
    let updated : Account :=
      { name := new_name, secret := account.secret, digits := account.digits,
        period := account.period, algorithm := account.algorithm, issuer := new_issuer }
    let s' := { s with accounts := s.accounts.set i updated }
    let res := s'.save w
    (res.1, s', res.2)
  else
    (.error (AppError.InvalidInput ("Account '" ++ old_name ++ "' not found")), s, w)

/-! ## Helper lemmas -/

/-- Deserializing a serialized account record recovers the record exactly. -/
theorem decodeAccount_encodeAccount (a : Account) :
    decodeAccount (encodeAccount a) = some a := by
  obtain ⟨name, secret, digits, period, alg, issuer⟩ := a
  cases alg <;> cases issuer <;> rfl

/-- List-level round trip of the account serialization. -/
theorem decodeList_map_encodeAccount (l : List Account) :
    decodeList (l.map encodeAccount) = some l := by
  induction l with
  | nil => rfl
  | cons a t ih =>
    simp [decodeList, decodeAccount_encodeAccount, ih]

/-- `parseAccounts` is a left inverse of `encodeAccounts`. -/
theorem parseAccounts_encodeAccounts (l : List Account) :
    parseAccounts (encodeAccounts l) = some l := by
  simp [parseAccounts, encodeAccounts, decodeList_map_encodeAccount]

theorem findFile_setFile_same (fs : List (String × Content)) (p : String) (c : Content) :
    findFile (setFile fs p c) p = some c := by
  simp [findFile, setFile]

theorem findFile_removeFile_ne (fs : List (String × Content)) (p q : String)
    (h : q ≠ p) : findFile (removeFile fs p) q = findFile fs q := by
  induction fs with
  | nil => rfl
  | cons e t ih =>
    by_cases he : e.1 = p
    · have hq : e.1 ≠ q := fun hh => h (hh ▸ he)
      simp only [removeFile, findFile, if_pos he, if_neg hq]
      exact ih
    · by_cases hq : e.1 = q
      · simp only [removeFile, findFile, if_neg he, if_pos hq]
      · simp only [removeFile, findFile, if_neg he, if_neg hq]
        exact ih

theorem findFile_removeFile_self (fs : List (String × Content)) (p : String) :
    findFile (removeFile fs p) p = none := by
  induction fs with
  | nil => rfl
  | cons e t ih =>
    by_cases he : e.1 = p
    · simp [removeFile, he, ih]
    · simp [removeFile, findFile, he, ih]

theorem findFile_setFile_ne (fs : List (String × Content)) (p q : String) (c : Content)
    (h : q ≠ p) : findFile (setFile fs p c) q = findFile fs q := by
  simp only [setFile, findFile, if_neg (fun hh : p = q => h hh.symm)]
  exact findFile_removeFile_ne fs p q h

/-- Appending ".bak" changes the path. -/
theorem append_bak_ne (fp : String) : fp ++ ".bak" ≠ fp := by
  intro h
  have hl := congrArg String.length h
  rw [String.length_append] at hl
  have h4 : (".bak" : String).length = 4 := rfl
  omega

/-- `List.findIdx` returns the length when no element satisfies the predicate. -/
theorem findIdx_of_all_false {α : Type} (p : α → Bool) (l : List α)
    (h : ∀ x ∈ l, p x = false) : l.findIdx p = l.length := by
  induction l with
  | nil => rfl
  | cons a t ih =>
    rw [List.findIdx_cons, h a (List.mem_cons_self a t)]
    simp [ih fun x hx => h x (List.mem_cons_of_mem a hx)]

/-- A successful `save` implies all three I/O flags were up. -/
theorem save_ok_flags (s : Storage) (w : World) (h : (s.save w).1 = .ok ()) :
    w.dirOk = true ∧ w.createOk = true ∧ w.writeOk = true := by
  by_cases h1 : w.dirOk <;> by_cases h2 : w.createOk <;> by_cases h3 : w.writeOk <;>
    simp_all [Storage.save]

/-- A `save` with all I/O flags up writes the serialized accounts at the path. -/
theorem save_ok_world (s : Storage) (w : World) (h1 : w.dirOk = true)
    (h2 : w.createOk = true) (h3 : w.writeOk = true) :
    s.save w = (.ok (),
      { w with files := setFile w.files s.file_path (.json (encodeAccounts s.accounts)) }) := by
  simp [Storage.save, h1, h2, h3]

/-- Arithmetic content of `time_remaining` on in-range u64 inputs: it equals
both `period - now % period` and the spec's `(now/period + 1)*period - now`. -/
theorem time_remaining_spec (a : Account) (now : Nat) (hp : 0 < a.period)
    (hpu : a.period < u64Mod) (hnu : now < u64Mod) :
    a.time_remaining now = (now / a.period + 1) * a.period - now
    ∧ a.time_remaining now = a.period - now % a.period := by
  have hdm : a.period * (now / a.period) + now % a.period = now :=
    Nat.div_add_mod now a.period
  have h5 : a.period * (now / a.period) = now - now % a.period :=
    Nat.eq_sub_of_add_eq hdm
  have hmlt : now % a.period < a.period := Nat.mod_lt now hp
  have hmle : now % a.period ≤ now := Nat.mod_le now a.period
  have hV : (now / a.period + 1) * a.period = now - now % a.period + a.period := by
    calc (now / a.period + 1) * a.period
        = a.period * (now / a.period) + a.period := by ring
      _ = now - now % a.period + a.period := by rw [h5]
  simp only [Account.time_remaining]
  rw [hV]
  simp only [u64Mod] at hpu hnu ⊢
  generalize now % a.period = r at hmlt hmle ⊢
  omega

/-! ## Sample data for witnesses and counterexamples -/

/-- A sample account with all fields populated. -/
def acctAlice : Account :=
  { name := "alice", secret := "JBSWY3DPEHPK3PXP", digits := 6, period := 30,
    algorithm := .sha1, issuer := some "Example" }

/-- A second sample account with non-default settings. -/
def acctBob : Account :=
  { name := "bob", secret := "NBSWY3DP", digits := 8, period := 60,
    algorithm := .sha256, issuer := none }

/-- A world with no files in which every I/O primitive succeeds. -/
def wAll : World :=
  { files := [], dirOk := true, openOk := true, createOk := true,
    writeOk := true, renameOk := true }

/-! ## Claim theorems -/

/-- C1 (code-bug exhibit): on an account whose secret is not valid Base32,
`generate_totp` PANICS — `Secret::Encoded(self.secret.clone()).to_bytes().unwrap()`
unwraps the failed Base32 decode before `TOTP::new` can return an error — instead
of returning the InvalidSecret-style error value the spec promises.  Evaluated
here at the concrete failing input: secret "!!!" (characters outside A-Z2-7). -/
theorem claim1_invalid_secret_aborts :
    Account.generate_totp (fun _ _ _ => [])
        { name := "work", secret := "!!!", digits := 6, period := 30,
          algorithm := .sha1, issuer := none } (some 59)
      = RunResult.panicked := rfl

/-- C5: for every account with period > 0 (and the u64-range side conditions
that hold for all actual u64 field values), `time_remaining now` equals
`(floor(now/period) + 1) * period - now`, is always in `[1, period]`, never
underflows, and returns the full period exactly on a period boundary. -/
theorem claim5_time_remaining_formula (a : Account) (now : Nat)
    (hp : 0 < a.period) (hpu : a.period < u64Mod) (hnu : now < u64Mod) :
    a.time_remaining now = (now / a.period + 1) * a.period - now
    ∧ 1 ≤ a.time_remaining now
    ∧ a.time_remaining now ≤ a.period
    ∧ (now % a.period = 0 → a.time_remaining now = a.period) := by
  obtain ⟨h1, h2⟩ := time_remaining_spec a now hp hpu hnu
  have hmlt : now % a.period < a.period := Nat.mod_lt now hp
  refine ⟨h1, ?_, ?_, fun hb => ?_⟩
  · rw [h2]; omega
  · rw [h2]; omega
  · rw [h2, hb]; omega

/-- Witness for C5: period 30, now 59 (inside the second window). -/
theorem claim5_witness :
    (0 : Nat) < 30 ∧ (30 : Nat) < u64Mod ∧ (59 : Nat) < u64Mod
    ∧ (Account.mk "w" "S" 6 30 .sha1 none).time_remaining 59
        = (59 / 30 + 1) * 30 - 59 := by
  refine ⟨by norm_num, by norm_num [u64Mod], by norm_num [u64Mod], ?_⟩
  exact (claim5_time_remaining_formula ⟨"w", "S", 6, 30, .sha1, none⟩ 59 (by norm_num)
    (by norm_num [u64Mod]) (by norm_num [u64Mod])).1

/-- C10: `time_remaining` is total for period > 0 — an unavailable or pre-epoch
clock is treated as now = 0 (`unwrap_or_default`), returning the full period —
and period = 0 is exactly the input whose internal division panics. -/
theorem claim10_time_remaining_total (a : Account) (clock : Option Nat)
    (hpu : a.period < u64Mod) :
    (0 < a.period →
        (∃ t, a.time_remaining_run clock = some t)
        ∧ (clock = none → a.time_remaining_run clock = some a.period))
    ∧ (a.period = 0 → a.time_remaining_run clock = none) := by
  constructor
  · intro hp
    have hne : a.period ≠ 0 := Nat.pos_iff_ne_zero.mp hp
    constructor
    · refine ⟨a.time_remaining (readClock clock), ?_⟩
      simp [Account.time_remaining_run, hne]
    · intro hc
      subst hc
      have h2 := (time_remaining_spec a 0 hp hpu (by norm_num [u64Mod])).2
      simp [Account.time_remaining_run, hne, readClock, h2]
  · intro hz
    simp [Account.time_remaining_run, hz]

/-- Witness for C10: a 30-second account with the clock unavailable. -/
theorem claim10_witness :
    (30 : Nat) < u64Mod
    ∧ (Account.mk "w" "S" 6 30 .sha1 none).time_remaining_run none = some 30 := by
  refine ⟨by norm_num [u64Mod], ?_⟩
  exact ((claim10_time_remaining_total ⟨"w", "S", 6, 30, .sha1, none⟩ none
    (by norm_num [u64Mod])).1 (by norm_num)).2 rfl

/-- C6: when the store contains an account named `old_name`, `update_account`
replaces (the first) such record with one keeping its secret, digits, period
and algorithm exactly, changing only the name and issuer fields. -/
theorem claim6_update_preserves (s : Storage) (w : World) (old_name new_name : String)
    (new_issuer : Option String)
    (h : s.accounts.findIdx (fun a => a.name == old_name) < s.accounts.length) :
    ((s.update_account w old_name new_name new_issuer).2.1).accounts =
      s.accounts.set (s.accounts.findIdx (fun a => a.name == old_name))
        { s.accounts.get ⟨s.accounts.findIdx (fun a => a.name == old_name), h⟩ with
            name := new_name, issuer := new_issuer } := by
  simp only [Storage.update_account, dif_pos h]

/-- Witness for C6: renaming alice to carol with a new issuer keeps her TOTP
parameters. -/
theorem claim6_witness :
    ([acctAlice].findIdx (fun a => a.name == "alice") < ([acctAlice] : List Account).length)
    ∧ ((Storage.mk "p" [acctAlice]).update_account wAll "alice" "carol" (some "NewCo")).2.1.accounts
        = [{ name := "carol", secret := "JBSWY3DPEHPK3PXP", digits := 6, period := 30,
             algorithm := .sha1, issuer := some "NewCo" }] := by
  refine ⟨by decide, ?_⟩
  exact (claim6_update_preserves ⟨"p", [acctAlice]⟩ wAll "alice" "carol" (some "NewCo")
    (by decide)).trans (by rfl)

/-- C7: `delete_account` on a name matching no stored account returns the
not-found `InvalidInput` error naming the account and changes neither memory
nor disk; on a match it removes (the first) matching account and persists the
updated list via `save`. -/
theorem claim7_delete (s : Storage) (w : World) (name : String) :
    ((∀ x ∈ s.accounts, x.name ≠ name) →
      s.delete_account w name
        = (.error (AppError.InvalidInput ("Account '" ++ name ++ "' not found")), s, w))
    ∧ (s.accounts.findIdx (fun a => a.name == name) < s.accounts.length →
      s.delete_account w name
        = (((Storage.mk s.file_path (s.accounts.eraseIdx
                (s.accounts.findIdx (fun a => a.name == name)))).save w).1,
           Storage.mk s.file_path (s.accounts.eraseIdx
                (s.accounts.findIdx (fun a => a.name == name))),
           ((Storage.mk s.file_path (s.accounts.eraseIdx
                (s.accounts.findIdx (fun a => a.name == name)))).save w).2)) := by
  constructor
  · intro hno
    have hidx : s.accounts.findIdx (fun a => a.name == name) = s.accounts.length :=
      findIdx_of_all_false _ _ (fun x hx => by
        simp only [beq_eq_false_iff_ne]
        exact hno x hx)
    simp only [Storage.delete_account, hidx]
    rw [if_neg (lt_irrefl _)]
  · intro h
    simp only [Storage.delete_account, if_pos h]

/-- Witness for C7: deleting "bob" from a store holding only alice errors and
leaves everything unchanged; deleting "alice" removes her and saves. -/
theorem claim7_witness :
    (∀ x ∈ ([acctAlice] : List Account), x.name ≠ "bob")
    ∧ ([acctAlice].findIdx (fun a => a.name == "alice") < ([acctAlice] : List Account).length)
    ∧ (Storage.mk "p" [acctAlice]).delete_account wAll "bob"
        = (.error (AppError.InvalidInput "Account 'bob' not found"), ⟨"p", [acctAlice]⟩, wAll)
    ∧ (Storage.mk "p" [acctAlice]).delete_account wAll "alice"
        = (.ok (), ⟨"p", []⟩,
           { files := [("p", Content.json (Json.jarr []))], dirOk := true, openOk := true,
             createOk := true, writeOk := true, renameOk := true }) := by
  have h1 : ∀ x ∈ ([acctAlice] : List Account), x.name ≠ "bob" := by decide
  have h2 : [acctAlice].findIdx (fun a => a.name == "alice")
      < ([acctAlice] : List Account).length := by decide
  refine ⟨h1, h2, ?_, ?_⟩
  · exact ((claim7_delete ⟨"p", [acctAlice]⟩ wAll "bob").1 h1).trans (by rfl)
  · exact ((claim7_delete ⟨"p", [acctAlice]⟩ wAll "alice").2 h2).trans (by rfl)

/-- C2 counterexample: with `File::create` failing, `add_account` returns an
error yet the pushed account stays in the in-memory vector — the claimed
"no partial apply on error" invariant fails on persist failure. -/
theorem claim2_counterexample :
    (Storage.mk "p" []).add_account
        { files := [], dirOk := true, openOk := true, createOk := false,
          writeOk := true, renameOk := true } acctAlice
      = (.error (AppError.FileError "Failed to create file"), ⟨"p", [acctAlice]⟩,
         { files := [], dirOk := true, openOk := true, createOk := false,
           writeOk := true, renameOk := true })
    ∧ [acctAlice] ≠ ([] : List Account) :=
  ⟨rfl, by decide⟩

/-- C2 amended: a mutating operation that fails BEFORE reaching its in-memory
mutation (directory-ensure failure in `add_account`, or a missing name in
`delete_account`/`update_account`) leaves memory and disk untouched; but when
the persist step fails after the mutation — any `save` failure (directory,
`File::create` or `write_all`) in any of `add_account`, `delete_account`,
`update_account` — the operation returns the save error with the in-memory
change still applied: the implementation is best-effort, not
rollback-on-save-failure. -/
theorem claim2_amended (s : Storage) (w : World) (a : Account)
    (name old_name new_name : String) (new_issuer : Option String) (e : AppError) :
    (w.dirOk = false →
      s.add_account w a
        = (.error (AppError.FileError "Failed to create directory"), s, w))
    ∧ ((∀ x ∈ s.accounts, x.name ≠ name) →
      s.delete_account w name
        = (.error (AppError.InvalidInput ("Account '" ++ name ++ "' not found")), s, w))
    ∧ ((∀ x ∈ s.accounts, x.name ≠ old_name) →
      s.update_account w old_name new_name new_issuer
        = (.error (AppError.InvalidInput ("Account '" ++ old_name ++ "' not found")), s, w))
    ∧ (w.dirOk = true →
        ((Storage.mk s.file_path (s.accounts ++ [a])).save w).1 = .error e →
      s.add_account w a
        = (.error e, Storage.mk s.file_path (s.accounts ++ [a]),
           ((Storage.mk s.file_path (s.accounts ++ [a])).save w).2))
    ∧ (s.accounts.findIdx (fun x => x.name == name) < s.accounts.length →
        ((Storage.mk s.file_path (s.accounts.eraseIdx
            (s.accounts.findIdx (fun x => x.name == name)))).save w).1 = .error e →
      s.delete_account w name
        = (.error e,
           Storage.mk s.file_path (s.accounts.eraseIdx
             (s.accounts.findIdx (fun x => x.name == name))),
           ((Storage.mk s.file_path (s.accounts.eraseIdx
             (s.accounts.findIdx (fun x => x.name == name)))).save w).2))
    ∧ (∀ h : s.accounts.findIdx (fun x => x.name == old_name) < s.accounts.length,
        ((Storage.mk s.file_path (s.accounts.set
            (s.accounts.findIdx (fun x => x.name == old_name))
            { s.accounts.get ⟨s.accounts.findIdx (fun x => x.name == old_name), h⟩ with
                name := new_name, issuer := new_issuer })).save w).1 = .error e →
      s.update_account w old_name new_name new_issuer
        = (.error e,
           Storage.mk s.file_path (s.accounts.set
             (s.accounts.findIdx (fun x => x.name == old_name))
             { s.accounts.get ⟨s.accounts.findIdx (fun x => x.name == old_name), h⟩ with
                 name := new_name, issuer := new_issuer }),
           ((Storage.mk s.file_path (s.accounts.set
             (s.accounts.findIdx (fun x => x.name == old_name))
             { s.accounts.get ⟨s.accounts.findIdx (fun x => x.name == old_name), h⟩ with
                 name := new_name, issuer := new_issuer })).save w).2)) := by
  refine ⟨fun hd => ?_, fun hno => ?_, fun hno => ?_, fun hd hsv => ?_,
    fun h hsv => ?_, fun h hsv => ?_⟩
  · simp [Storage.add_account, ensureDirectory, hd]
  · have hidx : s.accounts.findIdx (fun a => a.name == name) = s.accounts.length :=
      findIdx_of_all_false _ _ (fun x hx => by
        simp only [beq_eq_false_iff_ne]
        exact hno x hx)
    simp only [Storage.delete_account, hidx]
    rw [if_neg (lt_irrefl _)]
  · have hidx : s.accounts.findIdx (fun a => a.name == old_name) = s.accounts.length :=
      findIdx_of_all_false _ _ (fun x hx => by
        simp only [beq_eq_false_iff_ne]
        exact hno x hx)
    simp only [Storage.update_account, hidx]
    rw [dif_neg (lt_irrefl _)]
  · have he : ensureDirectory w = .ok () := by simp [ensureDirectory, hd]
    have hrun : s.add_account w a
        = (((Storage.mk s.file_path (s.accounts ++ [a])).save w).1,
           Storage.mk s.file_path (s.accounts ++ [a]),
           ((Storage.mk s.file_path (s.accounts ++ [a])).save w).2) := by
      simp only [Storage.add_account, he]
    rw [hrun, hsv]
  · have hrun : s.delete_account w name
        = (((Storage.mk s.file_path (s.accounts.eraseIdx
              (s.accounts.findIdx (fun x => x.name == name)))).save w).1,
           Storage.mk s.file_path (s.accounts.eraseIdx
             (s.accounts.findIdx (fun x => x.name == name))),
           ((Storage.mk s.file_path (s.accounts.eraseIdx
             (s.accounts.findIdx (fun x => x.name == name)))).save w).2) := by
      simp only [Storage.delete_account, if_pos h]
    rw [hrun, hsv]
  · have hrun : s.update_account w old_name new_name new_issuer
        = (((Storage.mk s.file_path (s.accounts.set
              (s.accounts.findIdx (fun x => x.name == old_name))
              { s.accounts.get ⟨s.accounts.findIdx (fun x => x.name == old_name), h⟩ with
                  name := new_name, issuer := new_issuer })).save w).1,
           Storage.mk s.file_path (s.accounts.set
             (s.accounts.findIdx (fun x => x.name == old_name))
             { s.accounts.get ⟨s.accounts.findIdx (fun x => x.name == old_name), h⟩ with
                 name := new_name, issuer := new_issuer }),
           ((Storage.mk s.file_path (s.accounts.set
             (s.accounts.findIdx (fun x => x.name == old_name))
             { s.accounts.get ⟨s.accounts.findIdx (fun x => x.name == old_name), h⟩ with
                 name := new_name, issuer := new_issuer })).save w).2) := by
      simp only [Storage.update_account, dif_pos h]
    rw [hrun, hsv]

/-- Witness for C2 (amended): every branch at concrete stores and worlds — the
pre-mutation failures, and persist failures of all three operations covering
both the `File::create` and the `write_all` (truncating) failure modes. -/
theorem claim2_amended_witness :
    (Storage.mk "p" []).add_account
        { files := [], dirOk := false, openOk := true, createOk := true,
          writeOk := true, renameOk := true } acctAlice
      = (.error (AppError.FileError "Failed to create directory"), ⟨"p", []⟩,
         { files := [], dirOk := false, openOk := true, createOk := true,
           writeOk := true, renameOk := true })
    ∧ (Storage.mk "p" [acctAlice]).delete_account wAll "bob"
        = (.error (AppError.InvalidInput "Account 'bob' not found"),
           ⟨"p", [acctAlice]⟩, wAll)
    ∧ (Storage.mk "p" [acctAlice]).update_account wAll "bob" "carol" none
        = (.error (AppError.InvalidInput "Account 'bob' not found"),
           ⟨"p", [acctAlice]⟩, wAll)
    ∧ (Storage.mk "p" []).add_account
        { files := [], dirOk := true, openOk := true, createOk := false,
          writeOk := true, renameOk := true } acctAlice
      = (.error (AppError.FileError "Failed to create file"), ⟨"p", [acctAlice]⟩,
         { files := [], dirOk := true, openOk := true, createOk := false,
           writeOk := true, renameOk := true })
    ∧ (Storage.mk "p" []).add_account
        { files := [], dirOk := true, openOk := true, createOk := true,
          writeOk := false, renameOk := true } acctAlice
      = (.error (AppError.FileError "Failed to write to file"), ⟨"p", [acctAlice]⟩,
         { files := [("p", Content.empty)], dirOk := true, openOk := true,
           createOk := true, writeOk := false, renameOk := true })
    ∧ (Storage.mk "p" [acctAlice]).delete_account
        { files := [], dirOk := true, openOk := true, createOk := false,
          writeOk := true, renameOk := true } "alice"
      = (.error (AppError.FileError "Failed to create file"), ⟨"p", []⟩,
         { files := [], dirOk := true, openOk := true, createOk := false,
           writeOk := true, renameOk := true })
    ∧ (Storage.mk "p" [acctAlice]).update_account
        { files := [], dirOk := true, openOk := true, createOk := false,
          writeOk := true, renameOk := true } "alice" "carol" (some "NewCo")
      = (.error (AppError.FileError "Failed to create file"),
         ⟨"p", [{ name := "carol", secret := "JBSWY3DPEHPK3PXP", digits := 6,
                  period := 30, algorithm := .sha1, issuer := some "NewCo" }]⟩,
         { files := [], dirOk := true, openOk := true, createOk := false,
           writeOk := true, renameOk := true }) := by
  have h1 : ∀ x ∈ ([acctAlice] : List Account), x.name ≠ "bob" := by decide
  have h2 : [acctAlice].findIdx (fun x => x.name == "alice")
      < ([acctAlice] : List Account).length := by decide
  refine ⟨?_, ?_, ?_, ?_, ?_, ?_, ?_⟩
  · exact (claim2_amended ⟨"p", []⟩ _ acctAlice "n" "o" "n" none
      AppError.SystemTimeError).1 rfl
  · exact ((claim2_amended ⟨"p", [acctAlice]⟩ wAll acctAlice "bob" "o" "n" none
      AppError.SystemTimeError).2.1 h1).trans (by rfl)
  · exact ((claim2_amended ⟨"p", [acctAlice]⟩ wAll acctAlice "n" "bob" "carol" none
      AppError.SystemTimeError).2.2.1 h1).trans (by rfl)
  · exact ((claim2_amended ⟨"p", []⟩
      { files := [], dirOk := true, openOk := true, createOk := false,
        writeOk := true, renameOk := true } acctAlice "n" "o" "n" none
      (AppError.FileError "Failed to create file")).2.2.2.1 rfl rfl).trans (by rfl)
  · exact ((claim2_amended ⟨"p", []⟩
      { files := [], dirOk := true, openOk := true, createOk := true,
        writeOk := false, renameOk := true } acctAlice "n" "o" "n" none
      (AppError.FileError "Failed to write to file")).2.2.2.1 rfl rfl).trans (by rfl)
  · exact ((claim2_amended ⟨"p", [acctAlice]⟩
      { files := [], dirOk := true, openOk := true, createOk := false,
        writeOk := true, renameOk := true } acctAlice "alice" "o" "n" none
      (AppError.FileError "Failed to create file")).2.2.2.2.1 h2 rfl).trans (by rfl)
  · exact ((claim2_amended ⟨"p", [acctAlice]⟩
      { files := [], dirOk := true, openOk := true, createOk := false,
        writeOk := true, renameOk := true } acctAlice "n" "alice" "carol" (some "NewCo")
      (AppError.FileError "Failed to create file")).2.2.2.2.2 h2 rfl).trans (by rfl)

/-- A file whose contents are non-empty and unparseable makes `load` fail with
`JsonError`, leaving the (empty) account list of a fresh store untouched. -/
theorem load_err_of_unparseable (fp : String) (w : World) (c : Content)
    (hopen : w.openOk = true) (hfile : findFile w.files fp = some c)
    (hbad : c.parses = false) (hne : c ≠ Content.empty) :
    (Storage.mk fp []).load w
      = (.error (AppError.JsonError "Failed to parse JSON"), ⟨fp, []⟩) := by
  cases c with
  | empty => exact absurd rfl hne
  | raw str => simp [Storage.load, hfile, hopen]
  | json j =>
    cases hpj : parseAccounts j with
    | some l => simp [Content.parses, hpj] at hbad
    | none => simp [Storage.load, hfile, hopen, hpj]

/-- When `load` fails at open time, `new_with_logger` still returns the store,
renaming the file to `<path>.bak` exactly when the rename succeeds. -/
theorem new_with_logger_err_case (fp : String) (w : World) (e : AppError) (s' : Storage)
    (hdir : w.dirOk = true) (hsome : (findFile w.files fp).isSome = true)
    (hload : (Storage.mk fp []).load w = (.error e, s')) :
    (Storage.new_with_logger fp w).1 = .ok s'
    ∧ (w.renameOk = true →
        (Storage.new_with_logger fp w).2
          = { w with files := renameFile w.files fp (fp ++ ".bak") })
    ∧ (w.renameOk = false → (Storage.new_with_logger fp w).2 = w) := by
  by_cases hr : w.renameOk <;>
    simp [Storage.new_with_logger, hdir, hsome, hload, hr]

/-- C3 counterexample: an existing but EMPTY storage file opens fine with zero
accounts yet is NOT renamed — no `.bak` backup appears, contrary to the claim
that every empty-or-unparseable file is renamed. -/
theorem claim3_counterexample :
    Storage.new_with_logger "acc.json"
        { files := [("acc.json", Content.empty)], dirOk := true, openOk := true,
          createOk := true, writeOk := true, renameOk := true }
      = (.ok ⟨"acc.json", []⟩,
         { files := [("acc.json", Content.empty)], dirOk := true, openOk := true,
           createOk := true, writeOk := true, renameOk := true })
    ∧ findFile [("acc.json", Content.empty)] "acc.json.bak" = none :=
  ⟨rfl, rfl⟩

/-- C3 amended: opening a store on a file whose contents are empty or
unparseable never returns an error and yields zero accounts; when the contents
are non-empty and unparseable the file is renamed to `<path>.bak` (rename
failure is absorbed); when the contents are EMPTY the file is left in place —
load treats the empty file as success, so no backup is made. -/
theorem claim3_amended (w : World) (fp : String) (c : Content)
    (hdir : w.dirOk = true) (hopen : w.openOk = true)
    (hfile : findFile w.files fp = some c) (hbad : c.parses = false) :
    (∃ st, (Storage.new_with_logger fp w).1 = Except.ok st
        ∧ st.file_path = fp ∧ st.accounts = [])
    ∧ (c = Content.empty → (Storage.new_with_logger fp w).2 = w)
    ∧ (c ≠ Content.empty → w.renameOk = true →
        findFile (Storage.new_with_logger fp w).2.files (fp ++ ".bak") = some c
        ∧ findFile (Storage.new_with_logger fp w).2.files fp = none) := by
  by_cases hce : c = Content.empty
  · subst hce
    have hload : (Storage.mk fp []).load w = (.ok (), ⟨fp, []⟩) := by
      simp [Storage.load, hfile, hopen]
    have hrun : Storage.new_with_logger fp w = (.ok ⟨fp, []⟩, w) := by
      simp [Storage.new_with_logger, hdir, hfile, hload]
    exact ⟨⟨⟨fp, []⟩, by rw [hrun], rfl, rfl⟩, fun _ => by rw [hrun],
      fun hne => absurd rfl hne⟩
  · have hload := load_err_of_unparseable fp w c hopen hfile hbad hce
    have hsome : (findFile w.files fp).isSome = true := by rw [hfile]; rfl
    obtain ⟨hfst, hrenT, hrenF⟩ := new_with_logger_err_case fp w _ _ hdir hsome hload
    refine ⟨⟨⟨fp, []⟩, hfst, rfl, rfl⟩, fun hc => absurd hc hce, fun _ hr => ?_⟩
    rw [hrenT hr]
    constructor
    · show findFile (renameFile w.files fp (fp ++ ".bak")) (fp ++ ".bak") = some c
      unfold renameFile
      rw [hfile]
      exact findFile_setFile_same _ _ _
    · show findFile (renameFile w.files fp (fp ++ ".bak")) fp = none
      unfold renameFile
      rw [hfile, findFile_setFile_ne _ _ _ _ (Ne.symm (append_bak_ne fp))]
      exact findFile_removeFile_self _ _

/-- Witness for C3 (amended): an empty file is left in place; a corrupt text
file is backed up to `.bak`. -/
theorem claim3_witness :
    (Content.empty.parses = false)
    ∧ (Storage.new_with_logger "a.json"
        { files := [("a.json", Content.empty)], dirOk := true, openOk := true,
          createOk := true, writeOk := true, renameOk := true }).2
      = { files := [("a.json", Content.empty)], dirOk := true, openOk := true,
          createOk := true, writeOk := true, renameOk := true }
    ∧ ((Content.raw "oops").parses = false)
    ∧ findFile (Storage.new_with_logger "b.json"
        { files := [("b.json", Content.raw "oops")], dirOk := true, openOk := true,
          createOk := true, writeOk := true, renameOk := true }).2.files
        ("b.json" ++ ".bak")
      = some (Content.raw "oops") := by
  refine ⟨rfl, ?_, rfl, ?_⟩
  · exact (claim3_amended
      { files := [("a.json", Content.empty)], dirOk := true, openOk := true,
        createOk := true, writeOk := true, renameOk := true }
      "a.json" Content.empty rfl rfl rfl rfl).2.1 rfl
  · exact ((claim3_amended
      { files := [("b.json", Content.raw "oops")], dirOk := true, openOk := true,
        createOk := true, writeOk := true, renameOk := true }
      "b.json" (Content.raw "oops") rfl rfl rfl rfl).2.2
      (fun h => nomatch h) rfl).1

/-- C4 counterexample: pointing the store at a path whose file exists and is
EMPTY succeeds but keeps the old in-memory accounts — the collection does not
reflect the (zero-account) contents of the new file. -/
theorem claim4_counterexample :
    (Storage.mk "old.json" [acctAlice]).update_file_path
        { files := [("new.json", Content.empty)], dirOk := true, openOk := true,
          createOk := true, writeOk := true, renameOk := true } "new.json"
      = (.ok (), ⟨"new.json", [acctAlice]⟩,
         { files := [("new.json", Content.empty)], dirOk := true, openOk := true,
           createOk := true, writeOk := true, renameOk := true })
    ∧ [acctAlice] ≠ ([] : List Account) :=
  ⟨rfl, by decide⟩

/-- C4 amended: a successful `update_file_path` rebinds the path, ensures the
directory and reloads: the collection becomes empty when the new file is
absent, becomes the file's parsed records when it parses — but when the new
file exists and is EMPTY the previous in-memory accounts are retained. -/
theorem claim4_amended (s : Storage) (w : World) (new_path : String)
    (hdir : w.dirOk = true) :
    (findFile w.files new_path = none →
      s.update_file_path w new_path = (.ok (), ⟨new_path, []⟩, w))
    ∧ (findFile w.files new_path = some Content.empty → w.openOk = true →
      s.update_file_path w new_path = (.ok (), ⟨new_path, s.accounts⟩, w))
    ∧ (∀ j l, findFile w.files new_path = some (Content.json j) →
        parseAccounts j = some l → w.openOk = true →
      s.update_file_path w new_path = (.ok (), ⟨new_path, l⟩, w)) := by
  refine ⟨fun hf => ?_, fun hf ho => ?_, fun j l hf hp ho => ?_⟩ <;>
    simp [Storage.update_file_path, ensureDirectory, Storage.load, hdir, *]

/-- Witness for C4 (amended): all three branches at concrete inputs. -/
theorem claim4_witness :
    (Storage.mk "o" [acctAlice]).update_file_path wAll "n"
      = (.ok (), ⟨"n", []⟩, wAll)
    ∧ (Storage.mk "o" [acctAlice]).update_file_path
        { files := [("n", Content.empty)], dirOk := true, openOk := true,
          createOk := true, writeOk := true, renameOk := true } "n"
      = (.ok (), ⟨"n", [acctAlice]⟩,
         { files := [("n", Content.empty)], dirOk := true, openOk := true,
           createOk := true, writeOk := true, renameOk := true })
    ∧ (Storage.mk "o" []).update_file_path
        { files := [("n", Content.json (encodeAccounts [acctBob]))], dirOk := true,
          openOk := true, createOk := true, writeOk := true, renameOk := true } "n"
      = (.ok (), ⟨"n", [acctBob]⟩,
         { files := [("n", Content.json (encodeAccounts [acctBob]))], dirOk := true,
           openOk := true, createOk := true, writeOk := true, renameOk := true }) := by
  refine ⟨?_, ?_, ?_⟩
  · exact (claim4_amended ⟨"o", [acctAlice]⟩ wAll "n" rfl).1 rfl
  · exact (claim4_amended ⟨"o", [acctAlice]⟩ _ "n" rfl).2.1 rfl rfl
  · exact (claim4_amended ⟨"o", []⟩ _ "n" rfl).2.2 (encodeAccounts [acctBob]) [acctBob]
      rfl (parseAccounts_encodeAccounts [acctBob]) rfl

/-- C8: saving the account list and loading it back from the same path
succeeds and yields the same accounts, equal in all fields and in the same
order. -/
theorem claim8_round_trip (s : Storage) (w : World)
    (hopen : w.openOk = true) (hsave : (s.save w).1 = .ok ()) :
    (s.load (s.save w).2).1 = .ok ()
    ∧ ((s.load (s.save w).2).2).accounts = s.accounts := by
  obtain ⟨h1, h2, h3⟩ := save_ok_flags s w hsave
  have hw := save_ok_world s w h1 h2 h3
  rw [hw]
  have hf : findFile (setFile w.files s.file_path (.json (encodeAccounts s.accounts)))
      s.file_path = some (.json (encodeAccounts s.accounts)) :=
    findFile_setFile_same _ _ _
  simp [Storage.load, hf, hopen, parseAccounts_encodeAccounts]

/-- Witness for C8: a two-account store round-trips through disk. -/
theorem claim8_witness :
    wAll.openOk = true
    ∧ ((Storage.mk "p" [acctAlice, acctBob]).save wAll).1 = .ok ()
    ∧ ((Storage.mk "p" [acctAlice, acctBob]).load
        ((Storage.mk "p" [acctAlice, acctBob]).save wAll).2).2.accounts
      = [acctAlice, acctBob] :=
  ⟨rfl, rfl, (claim8_round_trip (Storage.mk "p" [acctAlice, acctBob]) wAll rfl rfl).2⟩

/-- C9 counterexample: a persisted record carrying only `name` and `secret` —
in particular with NO `issuer` key — deserializes successfully (issuer becomes
`None`, the other fields take their defaults), so the file is not treated as
unparseable, contrary to the claim that `issuer` is required. -/
theorem claim9_counterexample :
    parseAccounts (Json.jarr [Json.jobj
        [("name", Json.jstr "alice"), ("secret", Json.jstr "JBSWY3DP")]])
      = some [{ name := "alice", secret := "JBSWY3DP", digits := 6, period := 30,
                algorithm := .sha1, issuer := none }] := rfl

/-- C9 amended: when deserializing a persisted account record only `name` and
`secret` are required; `digits`, `period` and `algorithm` default to 6, 30 and
SHA1, and `issuer` — an `Option` field — deserializes to `None` when its key is
absent, so a record lacking `issuer` still parses. -/
theorem claim9_required_fields (n sec : String) :
    decodeAccount (Json.jobj [("name", Json.jstr n), ("secret", Json.jstr sec)])
      = some { name := n, secret := sec, digits := 6, period := 30,
               algorithm := .sha1, issuer := none }
    ∧ decodeAccount (Json.jobj [("secret", Json.jstr sec)]) = none
    ∧ decodeAccount (Json.jobj [("name", Json.jstr n)]) = none :=
  ⟨rfl, rfl, rfl⟩
